import Mathlib

/-!
Verification development for the `done` to-do backend: a shallow embedding of
the DynamoDB-backed lambda handlers (key scheme, entity writes, cascading
delete) and of the request authorizer, with theorems checking the spec's
claims against the embedded code.

Conventions of the embedding:
* JSON scalar values are `Val`; a parsed JSON object body is an association
  list `Obj`.  The single nested object the handlers ever read
  (`defaultNotifications`, a map from minute-strings to booleans) is the
  `Val.dict` constructor.
* The DynamoDB table is an association list from composite keys to items.
  `ddbUpdate` follows the documented UpdateItem behaviour ("Edits an existing
  item's attributes, or adds a new item to the table if it does not already
  exist") because none of the handlers pass a ConditionExpression;
  `ddbDelete` follows the documented DeleteItem behaviour (deleting an absent
  key succeeds and is a no-op).
* Effectful collaborators of the handlers — `JSON.parse`, `Date.now()`,
  `uuidv4()`, `jwt.verify` — are injected as explicit parameters.
* A JavaScript exception escaping a handler is `Except.error`; a structured
  response is `Except.ok`.
-/

namespace Done


/-- JSON-ish attribute values as the handlers consume them.  `dict` models the
one nested object read by the code (`defaultNotifications : map[string]bool`);
`null` also stands in for JavaScript `NaN` where `parseInt` fails. -/
inductive Val where
  | str (s : String)
  | num (n : Int)
  | bool (b : Bool)
  | null
  | dict (entries : List (String × Bool))
deriving DecidableEq, Repr

/-- A parsed JSON object (or a stored item's non-key attributes): an ordered
association list, first binding wins on lookup as in a parsed JSON object. -/
abbrev Obj := List (String × Val)

/-- Field lookup, `obj.field` in JavaScript (`none` = `undefined`). -/
def Obj.get (o : Obj) (k : String) : Option Val :=
  (o.find? (fun p => p.1 == k)).map (fun p => p.2)

/-- Assignment `obj[k] = v`: overwrite the binding in place, or append. -/
def Obj.set (o : Obj) (k : String) (v : Val) : Obj :=
  match o with
  | [] => [(k, v)]
  | (k₀, v₀) :: rest =>
      if k₀ == k then (k₀, v) :: rest else (k₀, v₀) :: Obj.set rest k v

/-- JavaScript truthiness of a value, as used by `if (x)` and by the
`...(cond && { field })` spread idiom in the handlers. -/
def truthy : Val → Bool
  | .str s => s ≠ ""
  | .num n => n ≠ 0
  | .bool b => b
  | .null => false
  | .dict _ => true

/-- Composite key of the single table: partition key and sort key. -/
structure Key where
  pk : String
  sk : String
deriving DecidableEq, Repr

/-- The single DynamoDB table: keys mapped to item attributes. -/
abbrev Table := List (Key × Obj)

/-- Lookup of an item by its full composite key. -/
def Table.getItem (t : Table) (k : Key) : Option Obj :=
  (t.find? (fun p => p.1 == k)).map (fun p => p.2)

/-- PutItem: unconditional write, replacing any existing item at the key. -/
def ddbPut (t : Table) (k : Key) (item : Obj) : Table :=
  match t with
  | [] => [(k, item)]
  | (k₀, it₀) :: rest =>
      if k₀ == k then (k₀, item) :: rest else (k₀, it₀) :: ddbPut rest k item

/-- DeleteItem: removes the item when present; deleting an absent key
succeeds and leaves the table unchanged (documented DynamoDB behaviour,
and none of the handlers pass a ConditionExpression). -/
def ddbDelete (t : Table) (k : Key) : Table :=
  t.filter (fun p => p.1 != k)

/-- Application of a `SET a = :v, ...` update expression to an item's
attributes, in expression order. -/
def applySets (item : Obj) (sets : Obj) : Obj :=
  sets.foldl (fun acc p => Obj.set acc p.1 p.2) item

/-- UpdateItem without a ConditionExpression: edits the existing item at the
key, or — documented DynamoDB behaviour — creates a new item at that key from
the SET clauses if none exists (upsert).  Returns the new table. -/
def ddbUpdate (t : Table) (k : Key) (sets : Obj) : Table :=
  match Table.getItem t k with
  | some item => ddbPut t k (applySets item sets)
  | none => ddbPut t k (applySets [] sets)

/-! Key construction as written in each handler.
`createTaskNotification.ts` and `deleteTaskNotification.ts` both build
`pk = USER#<userId>`, `sk = TASK#<taskId>NOTIFICATION#<notificationId>`;
`updateTaskNotification.ts` builds `pk = TASK#<taskId>`,
`sk = NOTIFICATION#<notificationId>`. -/

/-- Key built by `createTaskNotification.ts` (params.Item pk/sk). -/
def createNotificationKey (userId taskId notificationId : String) : Key :=
  ⟨"USER#" ++ userId, "TASK#" ++ taskId ++ "NOTIFICATION#" ++ notificationId⟩

/-- Key built by `deleteTaskNotification.ts` (params.Key). -/
def deleteNotificationKey (userId taskId notificationId : String) : Key :=
  ⟨"USER#" ++ userId, "TASK#" ++ taskId ++ "NOTIFICATION#" ++ notificationId⟩

/-- Key built by `updateTaskNotification.ts` (params.Key): note the missing
`USER#` partition prefix and the split sort key. -/
def updateNotificationKey (taskId notificationId : String) : Key :=
  ⟨"TASK#" ++ taskId, "NOTIFICATION#" ++ notificationId⟩

/-- Key built by `createUserTask.ts` / `updateUserTask.ts` for a task. -/
def taskKey (userId taskId : String) : Key :=
  ⟨"USER#" ++ userId, "TASK#" ++ taskId⟩

/-- Key built by `updateUserSettings.ts` for the settings singleton. -/
def settingsKey (userId : String) : Key :=
  ⟨"USER#" ++ userId, "SETTINGS#"⟩

/-- Structured handler responses carry only the status code in this
development; bodies that matter to a claim are exposed separately. -/
structure Response where
  statusCode : Nat
deriving DecidableEq, Repr

/-- Case-exact header lookup (`event.headers[k]`). -/
def headerLookup (headers : List (String × String)) (k : String) : Option String :=
  (headers.find? (fun p => p.1 == k)).map (fun p => p.2)

/-- JavaScript `a || b` on possibly-undefined strings: the left value wins
when it is truthy (defined and non-empty). -/
def orFalsy (a b : Option String) : Option String :=
  match a with
  | some s => if s = "" then b else some s
  | none => b

/-- Reads `event.headers["X-User-Id"] || event.headers["x-user-id"]` folded
with the handlers' `if (!userId)` guard: `none` means the guard fires. -/
def readUserId (headers : List (String × String)) : Option String :=
  match orFalsy (headerLookup headers "X-User-Id") (headerLookup headers "x-user-id") with
  | some s => if s = "" then none else some s
  | none => none

/-- Folds a possibly-absent string with the `if (!x)` falsy guard used for
`event.body` and query-string parameters. -/
def presentNonEmpty (x : Option String) : Option String :=
  match x with
  | some s => if s = "" then none else some s
  | none => none

/-- SET clauses built by the update handlers: `updatedAt = :updatedAt` first,
then one clause per request-body key, in body order. -/
def buildUpdateSets (requestBody : Obj) (now : Int) : Obj :=
  ("updatedAt", Val.num now) :: requestBody

/-- Shared tail of the three update handlers: parse the body, build the SET
clauses, and run the (condition-free, hence upserting) UpdateItem.  A body
that itself carries an `updatedAt` key makes the built expression contain the
path `updatedAt` twice; DynamoDB rejects overlapping document paths, which
the handler's catch turns into a 500 with no write. -/
def runUpdate (body : String) (parse : String → Option Obj) (now : Int)
    (key : Key) (table : Table) : Except String (Response × Table) :=
  match parse body with
  | none => .error "SyntaxError: JSON.parse"
  | some requestBody =>
      if requestBody.any (fun p => p.1 == "updatedAt") then
        .ok (⟨500⟩, table)
      else
        .ok (⟨200⟩, ddbUpdate table key (buildUpdateSets requestBody now))

/-- Handler of `updateUserTask.ts`: guards for user id, body, `taskId`, then
UpdateItem on `USER#<userId>` / `TASK#<taskId>`. -/
def updateUserTask (headers : List (String × String)) (body? : Option String)
    (taskId? : Option String) (parse : String → Option Obj) (now : Int)
    (table : Table) : Except String (Response × Table) :=
  match readUserId headers with
  | none => .ok (⟨400⟩, table)
  | some userId =>
    match presentNonEmpty body? with
    | none => .ok (⟨400⟩, table)
    | some body =>
      match presentNonEmpty taskId? with
      | none => .ok (⟨400⟩, table)
      | some taskId => runUpdate body parse now (taskKey userId taskId) table

/-- Handler of `updateUserSettings.ts`: guards for user id and body, then
UpdateItem on `USER#<userId>` / `SETTINGS#`. -/
def updateUserSettings (headers : List (String × String)) (body? : Option String)
    (parse : String → Option Obj) (now : Int) (table : Table) :
    Except String (Response × Table) :=
  match readUserId headers with
  | none => .ok (⟨400⟩, table)
  | some userId =>
    match presentNonEmpty body? with
    | none => .ok (⟨400⟩, table)
    | some body => runUpdate body parse now (settingsKey userId) table

/-- Handler of `updateTaskNotification.ts`: guards for user id, body,
`taskId`, `notificationId`, then UpdateItem on the (mis-keyed)
`TASK#<taskId>` / `NOTIFICATION#<notificationId>` pair.  The read user id is
not used in the key. -/
def updateTaskNotification (headers : List (String × String)) (body? : Option String)
    (taskId? notificationId? : Option String) (parse : String → Option Obj)
    (now : Int) (table : Table) : Except String (Response × Table) :=
  match readUserId headers with
  | none => .ok (⟨400⟩, table)
  | some _userId =>
    match presentNonEmpty body? with
    | none => .ok (⟨400⟩, table)
    | some body =>
      match presentNonEmpty taskId? with
      | none => .ok (⟨400⟩, table)
      | some taskId =>
        match presentNonEmpty notificationId? with
        | none => .ok (⟨400⟩, table)
        | some notificationId =>
            runUpdate body parse now (updateNotificationKey taskId notificationId) table

/-- Handler of `deleteTaskNotification.ts`: guards for user id, `taskId`,
`notificationId`, then an unconditional DeleteItem followed by a 200.  There
is no request body and no existence check. -/
def deleteTaskNotification (headers : List (String × String))
    (taskId? notificationId? : Option String) (table : Table) : Response × Table :=
  match readUserId headers with
  | none => (⟨400⟩, table)
  | some userId =>
    match presentNonEmpty taskId? with
    | none => (⟨400⟩, table)
    | some taskId =>
      match presentNonEmpty notificationId? with
      | none => (⟨400⟩, table)
      | some notificationId =>
          (⟨200⟩, ddbDelete table (deleteNotificationKey userId taskId notificationId))

/-- Stub for the injected `JSON.parse` returning a fixed object on every body;
used to instantiate concrete runs of the handlers. -/
def constParse (o : Obj) : String → Option Obj := fun _ => some o

/-- Notification item fixture as written by `createTaskNotification.ts`. -/
def notifItemC3 : Obj :=
  [("notificationEnabled", Val.bool true), ("reminderTimeBeforeDue", Val.num 5),
   ("createdAt", Val.num 1), ("updatedAt", Val.num 1)]

/-- Task item fixture with distinct `createdAt` and `updatedAt`. -/
def taskItemC8 : Obj :=
  [("taskTitle", Val.str "a"), ("createdAt", Val.num 100), ("updatedAt", Val.num 200)]

/-- Settings item fixture for the C8 witness. -/
def settingsItemC8 : Obj :=
  [("twelveHour", Val.bool true), ("createdAt", Val.num 50), ("updatedAt", Val.num 60)]

/-! Embedding of `lambdaAuthorizer.ts`.  The remote JWKS key set is a list of
signing keys; `jwt.verify` is injected as a function from token and public
key to an optional decoded payload (`none` = the library threw). -/

/-- Signing key of the remote key set: key id and public key material. -/
structure SigningKey where
  kid : String
  pubKey : String
deriving DecidableEq, Repr

/-- Key selection as implemented by `verifyAccessToken`: `key[0]` of the
fetched key set (`client.getSigningKeys()` then `key[0].getPublicKey()`),
with no reference to the token's key-id header. -/
def sourceSigningKey (keys : List SigningKey) : Option SigningKey :=
  keys.head?

/-- Modelled from the spec: resolution of the verification key as the element
of the remote key set whose key id matches the key-id hint parsed from the
token's header ("parse the key-id hint from the token header, resolve the
matching public key from a remote key set endpoint").  The source's
`verifyAccessToken` contains no such resolution. -/
def selectKeyByKid (tokenKid : String) (keys : List SigningKey) : Option SigningKey :=
  keys.find? (fun k => k.kid == tokenKid)

/-- Embedding of `verifyAccessToken`: verify the token against the first key
of the key set.  An empty key set makes `key[0].getPublicKey()` throw, which
the handler's catch collapses into a denial, modeled as `none` like any other
verification failure. -/
def verifyAccessToken (verify : String → String → Option Obj)
    (keys : List SigningKey) (token : String) : Option Obj :=
  match sourceSigningKey keys with
  | none => none
  | some k => verify token k.pubKey

/-- Authorization decision returned to the gateway. -/
inductive AuthResult where
  | allow
  | deny
deriving DecidableEq, Repr

/-- Splitting accumulator over the character list of a string. -/
def jsSplitAux (c : Char) : List Char → List Char → List (List Char)
  | [], acc => [acc.reverse]
  | x :: xs, acc =>
      if x = c then acc.reverse :: jsSplitAux c xs []
      else jsSplitAux c xs (x :: acc)

/-- JavaScript `s.split(c)` for a single-character separator: splits on every
occurrence, keeping empty chunks, and yields `[s]` when the separator is
absent. -/
def jsSplit (c : Char) (s : String) : List String :=
  (jsSplitAux c s.toList []).map (fun l => String.mk l)

/-- Tail of the authorizer once both headers passed the guard: the token is
`auth.split(" ")[1]` (`none` when the header has no space, making
`jwt.verify(undefined)` throw); the try/catch turns any verification failure
or subject mismatch into the deny policy, and a verified subject equal to the
claimed user id into the allow policy. -/
def authDecision (verify : String → String → Option Obj) (keys : List SigningKey)
    (auth userId : String) : Except String AuthResult :=
  match (jsSplit ' ' auth).get? 1 with
  | none => .ok .deny
  | some token =>
    match verifyAccessToken verify keys token with
    | none => .ok .deny
    | some decoded =>
        if Obj.get decoded "sub" = some (Val.str userId) then .ok .allow
        else .ok .deny

/-- Embedding of the authorizer handler: missing `Authorization` or missing
claimed-identity header throws `Unauthorized` (`Except.error`); otherwise the
decision is `authDecision`. -/
def lambdaAuthorizer (verify : String → String → Option Obj)
    (keys : List SigningKey) (headers : List (String × String)) :
    Except String AuthResult :=
  match presentNonEmpty (headerLookup headers "Authorization"), readUserId headers with
  | some auth, some userId => authDecision verify keys auth userId
  | _, _ => .error "Unauthorized"

/-- Verification fixture: accepts exactly token `tok1` under public key `p1`,
decoding to subject `u1`. -/
def verifyFix : String → String → Option Obj :=
  fun tok key => if tok = "tok1" ∧ key = "p1" then some [("sub", Val.str "u1")] else none

/-- JWKS fixture whose first key id (`k2`) differs from the matching key id
(`k1`). -/
def keysC6 : List SigningKey := [⟨"k2", "p2"⟩, ⟨"k1", "p1"⟩]

/-! Embedding of `createUserTask.ts`. -/

/-- Digit-prefix numeral value: JavaScript `parseInt` as applied to the
`defaultNotifications` keys ("5", "15", ...); a key with no leading digits
gives NaN, modeled as `Val.null`. -/
def parseIntVal (s : String) : Val :=
  let digits := s.toList.takeWhile (fun c => c.isDigit)
  if digits = [] then Val.null
  else Val.num (digits.foldl (fun n c => 10 * n + ((c.toNat - 48 : Nat) : Int)) 0)

/-- Notification items built by `createUserTask.ts`: one item per key of the
`defaultNotifications` map whose value is truthy
(`Object.keys(notifications).filter((key) => notifications[key])`), each as a
separate item keyed under the created task with a fresh uuid (injected as
`uuids`, one per produced item in order), with
`reminderTimeBeforeDue = parseInt(key)`.  The JS object is modeled as its
entry list with the usual unique-key property of a parsed JSON object. -/
def notificationItems (userId taskId : String) (uuids : Nat → String)
    (notifications : List (String × Bool)) (now : Int) : List (Key × Obj) :=
  ((notifications.filter (fun p => p.2)).enum).map (fun q =>
    (⟨"USER#" ++ userId, "TASK#" ++ taskId ++ "NOTIFICATION#" ++ uuids q.1⟩,
     [("notificationEnabled", Val.bool true),
      ("reminderTimeBeforeDue", parseIntVal q.2.1),
      ("createdAt", Val.num now), ("updatedAt", Val.num now)]))

/-- Optional spread `...(requestBody.k && { k: requestBody.k })`: the field is
included only when present and truthy. -/
def truthyField (rb : Obj) (k : String) : Obj :=
  match Obj.get rb k with
  | some v => if truthy v then [(k, v)] else []
  | none => []

/-- Task item written by `createUserTask.ts` (`taskParams.Item`, minus the
key attributes): `taskCompleted` is the literal `false` regardless of the
request body; `taskNotes`, `taskDueDate` and `categoryId` are spread in only
when truthy; `taskTitle` is copied from the body (dropped when absent, where
the marshaller skips an undefined attribute). -/
def taskItemOf (rb : Obj) (now : Int) : Obj :=
  (match Obj.get rb "taskTitle" with
   | some v => [("taskTitle", v)]
   | none => [])
  ++ [("taskCompleted", Val.bool false)]
  ++ truthyField rb "taskNotes"
  ++ truthyField rb "taskDueDate"
  ++ truthyField rb "categoryId"
  ++ [("createdAt", Val.num now), ("updatedAt", Val.num now)]

/-- The `cleanedTask` object serialized into the 200 response body:
`taskCompleted` echoes `requestBody.taskCompleted` verbatim (dropped by
`JSON.stringify` when absent), `taskNotes`/`taskDueDate` get falsy defaults,
`categoryId` is spread in only when truthy, and `taskNotifications` echoes an
(ordinarily absent) body field. -/
def cleanedTaskOf (taskId : String) (rb : Obj) (now : Int) : Obj :=
  [("taskId", Val.str taskId)]
  ++ (match Obj.get rb "taskTitle" with
      | some v => [("taskTitle", v)]
      | none => [])
  ++ (match Obj.get rb "taskCompleted" with
      | some v => [("taskCompleted", v)]
      | none => [])
  ++ [("taskNotes", match Obj.get rb "taskNotes" with
      | some v => if truthy v then v else Val.str ""
      | none => Val.str "")]
  ++ [("taskDueDate", match Obj.get rb "taskDueDate" with
      | some v => if truthy v then v else Val.num 0
      | none => Val.num 0)]
  ++ truthyField rb "categoryId"
  ++ (match Obj.get rb "taskNotifications" with
      | some v => [("taskNotifications", v)]
      | none => [])
  ++ [("createdAt", Val.num now), ("updatedAt", Val.num now)]

/-- JavaScript `Object.keys(x)` on the notification map position: undefined
or null throws a TypeError (`none`); an object gives its entries; any other
primitive has no enumerable own keys (exact for booleans and numbers, the
only other values a JSON body can place there besides strings). -/
def notifMapEntries : Option Val → Option (List (String × Bool))
  | none => none
  | some Val.null => none
  | some (Val.dict entries) => some entries
  | some _ => some []

/-- Result of the create-task handler: status code, the `cleanedTask` echoed
in a 200 body, and the table after the writes. -/
structure CreateTaskResult where
  statusCode : Nat
  cleanedTask : Option Obj
  table : Table
deriving DecidableEq, Repr

/-- Handler of `createUserTask.ts`.  Guards mirror the source order: table
name environment variable, user id header, body; then `JSON.parse` (outside
the try — a parse throw escapes the handler), then
`Object.keys(requestBody.defaultNotifications)` (likewise outside the try — a
TypeError escapes when the map is absent or null); then, inside the try, the
task PutItem followed by the notification batch write.  A batch write with an
empty request list is rejected by the store, which the catch turns into a 500
after the task item was already written. -/
def createUserTask (tableNameSet : Bool) (headers : List (String × String))
    (body? : Option String) (parse : String → Option Obj) (uuids : Nat → String)
    (now : Int) (table : Table) : Except String CreateTaskResult :=
  if tableNameSet = false then .ok ⟨500, none, table⟩ else
  match readUserId headers with
  | none => .ok ⟨400, none, table⟩
  | some userId =>
    match presentNonEmpty body? with
    | none => .ok ⟨400, none, table⟩
    | some body =>
      match parse body with
      | none => .error "SyntaxError: JSON.parse"
      | some rb =>
        match notifMapEntries (Obj.get rb "defaultNotifications") with
        | none => .error "TypeError: Object.keys"
        | some entries =>
          let taskId := uuids 0
          let notifs := notificationItems userId taskId (fun i => uuids (i + 1)) entries now
          let t₁ := ddbPut table (taskKey userId taskId) (taskItemOf rb now)
          if notifs.isEmpty then .ok ⟨500, none, t₁⟩
          else .ok ⟨200, some (cleanedTaskOf taskId rb now),
                    notifs.foldl (fun acc q => ddbPut acc q.1 q.2) t₁⟩

/-- Parse stub that fails on every body, as `JSON.parse` does on a body that
is not valid JSON. -/
def noParse : String → Option Obj := fun _ => none

/-- Uuid supply fixture: `tid` for the task, `nid` for every notification. -/
def uuidFix : Nat → String := fun i => if i = 0 then "tid" else "nid"

/-- Request-body fixture for the C10 witness. -/
def rbC10 : Obj :=
  [("taskTitle", Val.str "Buy milk"), ("taskCompleted", Val.bool true),
   ("defaultNotifications", Val.dict [("5", true), ("15", false)])]

/-! Embedding of the cascade delete in `deleteAccount.ts`. -/

/-- Blockwise splitting of a list into consecutive chunks of at most `n`
elements: the shape of both the handler's batching loop
(`for (let i = 0; i < deleteRequests.length; i += 25) slice(i, i + 25)`) and,
instantiated with the page size, of the store's pagination of the partition
query (the loop deletes every item it has seen before requesting the next
page with the returned continuation token, so the successive pages are the
successive blocks of the items present at scan time; the loop exits when a
page comes back without a token, i.e. when the blocks are exhausted). -/
def chunksOf {α : Type} (n : Nat) (l : List α) : List (List α) :=
  if h : l.length = 0 ∨ n = 0 then [] else l.take n :: chunksOf n (l.drop n)
termination_by l.length
decreasing_by
  simp_wf
  rcases not_or.mp h with ⟨hl, hn⟩
  exact ⟨Nat.pos_of_ne_zero hl, Nat.pos_of_ne_zero hn⟩

/-- Page sequence of the partition query, one page per query round-trip. -/
def paginate (pageSize : Nat) (items : List Key) : List (List Key) :=
  chunksOf pageSize items

/-- Batch rounds of `deleteAccount.ts`: for each page, the page's delete
requests split into chunks of at most 25; all chunks of one page are issued
together (`Promise.all`) and awaited before the next page is fetched, which
the nesting page-then-chunk structure records. -/
def deleteAccountBatches (pageSize : Nat) (items : List Key) : List (List (List Key)) :=
  (paginate pageSize items).map (chunksOf 25)

/-- Partition fixture for the C4 witness. -/
def keysC4 : List Key :=
  [⟨"USER#u", "SETTINGS#"⟩, ⟨"USER#u", "TASK#1"⟩, ⟨"USER#u", "TASK#2"⟩,
   ⟨"USER#u", "TASK#3"⟩]

/-! Basic lemmas about the object and table operations. -/

theorem Obj.get_nil (k : String) : Obj.get [] k = none := rfl

theorem Obj.get_cons (k₀ : String) (v₀ : Val) (rest : Obj) (k : String) :
    Obj.get ((k₀, v₀) :: rest) k = if k₀ = k then some v₀ else Obj.get rest k := by
  by_cases h : k₀ = k
  · have hb : (k₀ == k) = true := by simp [h]
    simp [Obj.get, List.find?, hb, h]
  · have hb : (k₀ == k) = false := by simp [h]
    simp [Obj.get, List.find?, hb, h]

theorem Obj.get_set_self (o : Obj) (k : String) (v : Val) :
    Obj.get (Obj.set o k v) k = some v := by
  induction o with
  | nil => simp [Obj.set, Obj.get_cons]
  | cons p rest ih =>
      rcases p with ⟨k₀, v₀⟩
      by_cases h : k₀ = k
      · simp [Obj.set, Obj.get_cons, h]
      · simp [Obj.set, Obj.get_cons, h, ih]

theorem Obj.get_set_ne (o : Obj) (k k' : String) (v : Val) (h : k' ≠ k) :
    Obj.get (Obj.set o k v) k' = Obj.get o k' := by
  induction o with
  | nil => simp [Obj.set, Obj.get_cons, Obj.get_nil, Ne.symm h]
  | cons p rest ih =>
      rcases p with ⟨k₀, v₀⟩
      by_cases h₀ : k₀ = k
      · subst h₀
        simp [Obj.set, Obj.get_cons, Ne.symm h]
      · by_cases h₁ : k₀ = k' <;> simp [Obj.set, Obj.get_cons, h₀, h₁, h, ih]

theorem get_applySets_of_not_mem (sets : Obj) (o : Obj) (k : String)
    (h : ∀ p ∈ sets, p.1 ≠ k) :
    Obj.get (applySets o sets) k = Obj.get o k := by
  induction sets generalizing o with
  | nil => simp [applySets]
  | cons p rest ih =>
      have hrest : ∀ q ∈ rest, q.1 ≠ k := fun q hq => h q (List.mem_cons_of_mem _ hq)
      have hp : p.1 ≠ k := h p (List.mem_cons_self _ _)
      calc Obj.get (applySets o (p :: rest)) k
          = Obj.get (applySets (Obj.set o p.1 p.2) rest) k := by
            simp [applySets, List.foldl_cons]
        _ = Obj.get (Obj.set o p.1 p.2) k := ih (Obj.set o p.1 p.2) hrest
        _ = Obj.get o k := Obj.get_set_ne o p.1 k p.2 (fun hk => hp hk.symm)

theorem applySets_cons (o : Obj) (p : String × Val) (rest : Obj) :
    applySets o (p :: rest) = applySets (Obj.set o p.1 p.2) rest := by
  simp [applySets, List.foldl_cons]

theorem get_applySets_buildUpdateSets_updatedAt (o rb : Obj) (now : Int)
    (h : ∀ p ∈ rb, p.1 ≠ "updatedAt") :
    Obj.get (applySets o (buildUpdateSets rb now)) "updatedAt" = some (Val.num now) := by
  rw [buildUpdateSets, applySets_cons, get_applySets_of_not_mem rb _ _ h]
  exact Obj.get_set_self o "updatedAt" (Val.num now)

theorem get_applySets_buildUpdateSets_other (o rb : Obj) (now : Int) (k : String)
    (hk : k ≠ "updatedAt") (h : ∀ p ∈ rb, p.1 ≠ k) :
    Obj.get (applySets o (buildUpdateSets rb now)) k = Obj.get o k := by
  rw [buildUpdateSets, applySets_cons, get_applySets_of_not_mem rb _ _ h]
  exact Obj.get_set_ne o "updatedAt" k (Val.num now) hk

theorem getItem_ddbPut_self (t : Table) (k : Key) (item : Obj) :
    Table.getItem (ddbPut t k item) k = some item := by
  induction t with
  | nil => simp [ddbPut, Table.getItem, List.find?]
  | cons p rest ih =>
      rcases p with ⟨k₀, it₀⟩
      by_cases h : k₀ = k
      · simp [ddbPut, Table.getItem, List.find?, h]
      · simpa [ddbPut, Table.getItem, List.find?, h] using ih

theorem ddbUpdate_absent (t : Table) (k : Key) (sets : Obj)
    (h : Table.getItem t k = none) :
    ddbUpdate t k sets = ddbPut t k (applySets [] sets) := by
  simp [ddbUpdate, h]

theorem ddbUpdate_present (t : Table) (k : Key) (item sets : Obj)
    (h : Table.getItem t k = some item) :
    ddbUpdate t k sets = ddbPut t k (applySets item sets) := by
  simp [ddbUpdate, h]

theorem ddbDelete_absent (t : Table) (k : Key)
    (h : Table.getItem t k = none) : ddbDelete t k = t := by
  have hfind : List.find? (fun p => p.1 == k) t = none := by
    unfold Table.getItem at h
    cases hf : List.find? (fun p => p.1 == k) t with
    | none => rfl
    | some p => rw [hf] at h; simp at h
  have hall := List.find?_eq_none.mp hfind
  unfold ddbDelete
  apply List.filter_eq_self.mpr
  intro a ha
  have h₁ : (a.1 == k) = false := by
    have := hall a ha
    simpa using this
  simp [bne, h₁]

/-- Evaluation helper: a single `X-User-Id` header resolves to its value. -/
theorem readUserId_single (userId : String) (hu : userId ≠ "") :
    readUserId [("X-User-Id", userId)] = some userId := by
  simp [readUserId, headerLookup, orFalsy, List.find?, hu]

/-- C1 counterexample: on an empty table, `updateUserTask` addressed at a
non-existent task returns 200 — not NotFound — and writes a brand-new item
under the addressed key. -/
theorem updateUserTask_upsert_counterexample :
    Table.getItem ([] : Table) (taskKey "u1" "t1") = none
    ∧ updateUserTask [("X-User-Id", "u1")] (some "b") (some "t1")
        (constParse [("taskTitle", Val.str "x")]) 5 []
      = .ok (⟨200⟩, [(taskKey "u1" "t1",
          [("updatedAt", Val.num 5), ("taskTitle", Val.str "x")])]) := by
  exact ⟨rfl, rfl⟩

/-- C1 (amended): when no item exists under the addressed key, none of the
update handlers returns NotFound; because the UpdateItem call carries no
ConditionExpression it silently creates a new item under that key (DynamoDB
upsert) and returns 200.  Stated for the task, settings and notification
update handlers. -/
theorem update_missing_item_creates
    (userId taskId notificationId body : String) (rb : Obj)
    (parse : String → Option Obj) (now : Int) (t : Table)
    (hu : userId ≠ "") (ht : taskId ≠ "") (hn : notificationId ≠ "") (hb : body ≠ "")
    (hp : parse body = some rb)
    (hupd : ∀ p ∈ rb, p.1 ≠ "updatedAt")
    (h₁ : Table.getItem t (taskKey userId taskId) = none)
    (h₂ : Table.getItem t (settingsKey userId) = none)
    (h₃ : Table.getItem t (updateNotificationKey taskId notificationId) = none) :
    (∃ t₁, updateUserTask [("X-User-Id", userId)] (some body) (some taskId) parse now t
        = .ok (⟨200⟩, t₁)
      ∧ Table.getItem t₁ (taskKey userId taskId) ≠ none)
    ∧ (∃ t₂, updateUserSettings [("X-User-Id", userId)] (some body) parse now t
        = .ok (⟨200⟩, t₂)
      ∧ Table.getItem t₂ (settingsKey userId) ≠ none)
    ∧ (∃ t₃, updateTaskNotification [("X-User-Id", userId)] (some body) (some taskId)
          (some notificationId) parse now t
        = .ok (⟨200⟩, t₃)
      ∧ Table.getItem t₃ (updateNotificationKey taskId notificationId) ≠ none) := by
  have hread := readUserId_single userId hu
  have hany : rb.any (fun p => p.1 == "updatedAt") = false := by
    rw [List.any_eq_false]
    intro p hp'
    simpa using hupd p hp'
  refine ⟨⟨ddbPut t (taskKey userId taskId) (applySets [] (buildUpdateSets rb now)), ?_, ?_⟩,
         ⟨ddbPut t (settingsKey userId) (applySets [] (buildUpdateSets rb now)), ?_, ?_⟩,
         ⟨ddbPut t (updateNotificationKey taskId notificationId)
            (applySets [] (buildUpdateSets rb now)), ?_, ?_⟩⟩
  · simp [updateUserTask, hread, presentNonEmpty, hb, ht, runUpdate, hp, hany,
      ddbUpdate_absent t (taskKey userId taskId) (buildUpdateSets rb now) h₁]
  · simp [getItem_ddbPut_self]
  · simp [updateUserSettings, hread, presentNonEmpty, hb, runUpdate, hp, hany,
      ddbUpdate_absent t (settingsKey userId) (buildUpdateSets rb now) h₂]
  · simp [getItem_ddbPut_self]
  · simp [updateTaskNotification, hread, presentNonEmpty, hb, ht, hn, runUpdate, hp, hany,
      ddbUpdate_absent t (updateNotificationKey taskId notificationId) (buildUpdateSets rb now) h₃]
  · simp [getItem_ddbPut_self]

/-- Witness for `update_missing_item_creates` at a concrete input. -/
theorem update_missing_item_creates_witness :
    ∃ t₁, updateUserTask [("X-User-Id", "u1")] (some "b") (some "t1")
        (constParse [("taskTitle", Val.str "x")]) 5 []
      = .ok (⟨200⟩, t₁)
    ∧ Table.getItem t₁ (taskKey "u1" "t1") ≠ none :=
  (update_missing_item_creates "u1" "t1" "n1" "b" [("taskTitle", Val.str "x")]
    (constParse [("taskTitle", Val.str "x")]) 5 []
    (by decide) (by decide) (by decide) (by decide) (by decide)
    (by decide) (by decide) (by decide) (by decide)).1

/-- C3: the create and delete handlers agree on the notification key pair
`USER#<userId>` / `TASK#<taskId>NOTIFICATION#<notificationId>`, but the update
handler keys on `TASK#<taskId>` / `NOTIFICATION#<notificationId>`; running the
update handler against a table holding a notification written by the create
handler therefore leaves that item untouched and writes a stray item under the
mismatched key. -/
theorem notification_key_scheme_inconsistent :
    createNotificationKey "u1" "t1" "n1" = ⟨"USER#u1", "TASK#t1NOTIFICATION#n1"⟩
    ∧ deleteNotificationKey "u1" "t1" "n1" = createNotificationKey "u1" "t1" "n1"
    ∧ updateNotificationKey "t1" "n1" = ⟨"TASK#t1", "NOTIFICATION#n1"⟩
    ∧ updateNotificationKey "t1" "n1" ≠ createNotificationKey "u1" "t1" "n1"
    ∧ updateTaskNotification [("X-User-Id", "u1")] (some "b") (some "t1") (some "n1")
        (constParse [("notificationEnabled", Val.bool false)]) 2
        [(createNotificationKey "u1" "t1" "n1", notifItemC3)]
      = .ok (⟨200⟩,
          [(createNotificationKey "u1" "t1" "n1", notifItemC3),
           (updateNotificationKey "t1" "n1",
             [("updatedAt", Val.num 2), ("notificationEnabled", Val.bool false)])]) := by
  refine ⟨rfl, rfl, rfl, by decide, rfl⟩

/-- C7 counterexample: deleting a notification that does not exist returns
200 — not NotFound — with the table unchanged. -/
theorem deleteTaskNotification_missing_counterexample :
    Table.getItem ([] : Table) (deleteNotificationKey "u1" "t1" "n1") = none
    ∧ deleteTaskNotification [("X-User-Id", "u1")] (some "t1") (some "n1") []
      = (⟨200⟩, []) := by
  exact ⟨rfl, rfl⟩

/-- C7 (amended): deleting a notification addressed by a taskId/notificationId
pair for which no item exists leaves the table unchanged but returns 200, not
NotFound: the unconditional DeleteItem reports success whether or not the item
existed. -/
theorem deleteTaskNotification_absent_item
    (userId taskId notificationId : String) (t : Table)
    (hu : userId ≠ "") (ht : taskId ≠ "") (hn : notificationId ≠ "")
    (h : Table.getItem t (deleteNotificationKey userId taskId notificationId) = none) :
    deleteTaskNotification [("X-User-Id", userId)] (some taskId) (some notificationId) t
      = (⟨200⟩, t) := by
  have hread := readUserId_single userId hu
  simp [deleteTaskNotification, hread, presentNonEmpty, ht, hn,
    ddbDelete_absent t (deleteNotificationKey userId taskId notificationId) h]

/-- Witness for `deleteTaskNotification_absent_item` at a concrete input. -/
theorem deleteTaskNotification_absent_item_witness :
    deleteTaskNotification [("X-User-Id", "u2")] (some "t2") (some "n2")
        [(taskKey "u2" "t2", [("taskTitle", Val.str "a")])]
      = (⟨200⟩, [(taskKey "u2" "t2", [("taskTitle", Val.str "a")])]) :=
  deleteTaskNotification_absent_item "u2" "t2" "n2"
    [(taskKey "u2" "t2", [("taskTitle", Val.str "a")])]
    (by decide) (by decide) (by decide) (by decide)

/-- C8 counterexample: a PATCH body supplying `createdAt` is copied verbatim
into the update expression, so the stored `createdAt` changes from 100 to 0 —
the claim's "createdAt is unchanged for any partial field set" fails. -/
theorem update_overwrites_createdAt_counterexample :
    Obj.get taskItemC8 "createdAt" = some (Val.num 100)
    ∧ updateUserTask [("X-User-Id", "u1")] (some "b") (some "t1")
        (constParse [("createdAt", Val.num 0)]) 300
        [(taskKey "u1" "t1", taskItemC8)]
      = .ok (⟨200⟩, [(taskKey "u1" "t1",
          [("taskTitle", Val.str "a"), ("createdAt", Val.num 0),
           ("updatedAt", Val.num 300)])]) := by
  exact ⟨rfl, rfl⟩

/-- C8 (amended): for the task and settings update handlers, when the
addressed item exists and the request body supplies neither `createdAt` nor
`updatedAt`, the stored `updatedAt` becomes the injected current clock value —
a strict increase whenever the clock has advanced past the prior stored
value — and the stored `createdAt` is unchanged.  A body supplying `createdAt`
overwrites it (see the counterexample), and `updatedAt` only strictly
increases when `Date.now()` exceeds the prior value. -/
theorem update_bumps_updatedAt_preserves_createdAt
    (userId taskId body : String) (rb item sItem : Obj) (parse : String → Option Obj)
    (now u₀ su₀ : Int) (c sc : Val) (t : Table)
    (hu : userId ≠ "") (ht : taskId ≠ "") (hb : body ≠ "")
    (hp : parse body = some rb)
    (hrb : ∀ p ∈ rb, p.1 ≠ "createdAt" ∧ p.1 ≠ "updatedAt")
    (hit : Table.getItem t (taskKey userId taskId) = some item)
    (hc : Obj.get item "createdAt" = some c)
    (hu₀ : Obj.get item "updatedAt" = some (Val.num u₀))
    (hsit : Table.getItem t (settingsKey userId) = some sItem)
    (hsc : Obj.get sItem "createdAt" = some sc)
    (hsu₀ : Obj.get sItem "updatedAt" = some (Val.num su₀))
    (hnow : u₀ < now) (hsnow : su₀ < now) :
    (∃ t₁ item₁,
        updateUserTask [("X-User-Id", userId)] (some body) (some taskId) parse now t
          = .ok (⟨200⟩, t₁)
        ∧ Table.getItem t₁ (taskKey userId taskId) = some item₁
        ∧ Obj.get item₁ "updatedAt" = some (Val.num now)
        ∧ u₀ < now
        ∧ Obj.get item₁ "createdAt" = some c)
    ∧ (∃ t₂ item₂,
        updateUserSettings [("X-User-Id", userId)] (some body) parse now t
          = .ok (⟨200⟩, t₂)
        ∧ Table.getItem t₂ (settingsKey userId) = some item₂
        ∧ Obj.get item₂ "updatedAt" = some (Val.num now)
        ∧ su₀ < now
        ∧ Obj.get item₂ "createdAt" = some sc) := by
  have hread := readUserId_single userId hu
  have hanyU : ∀ p ∈ rb, p.1 ≠ "updatedAt" := fun p hp' => (hrb p hp').2
  have hanyC : ∀ p ∈ rb, p.1 ≠ "createdAt" := fun p hp' => (hrb p hp').1
  have hany : rb.any (fun p => p.1 == "updatedAt") = false := by
    rw [List.any_eq_false]
    intro p hp'
    simpa using hanyU p hp'
  constructor
  · refine ⟨ddbPut t (taskKey userId taskId) (applySets item (buildUpdateSets rb now)),
      applySets item (buildUpdateSets rb now), ?_, ?_, ?_, hnow, ?_⟩
    · simp [updateUserTask, hread, presentNonEmpty, hb, ht, runUpdate, hp, hany,
        ddbUpdate_present t (taskKey userId taskId) item (buildUpdateSets rb now) hit]
    · exact getItem_ddbPut_self t _ _
    · exact get_applySets_buildUpdateSets_updatedAt item rb now hanyU
    · rw [get_applySets_buildUpdateSets_other item rb now "createdAt" (by decide) hanyC]
      exact hc
  · refine ⟨ddbPut t (settingsKey userId) (applySets sItem (buildUpdateSets rb now)),
      applySets sItem (buildUpdateSets rb now), ?_, ?_, ?_, hsnow, ?_⟩
    · simp [updateUserSettings, hread, presentNonEmpty, hb, runUpdate, hp, hany,
        ddbUpdate_present t (settingsKey userId) sItem (buildUpdateSets rb now) hsit]
    · exact getItem_ddbPut_self t _ _
    · exact get_applySets_buildUpdateSets_updatedAt sItem rb now hanyU
    · rw [get_applySets_buildUpdateSets_other sItem rb now "createdAt" (by decide) hanyC]
      exact hsc

/-- Witness for `update_bumps_updatedAt_preserves_createdAt` at a concrete
input. -/
theorem update_bumps_updatedAt_witness :
    ∃ t₁ item₁,
      updateUserTask [("X-User-Id", "u1")] (some "b") (some "t1")
          (constParse [("taskTitle", Val.str "z")]) 300
          [(taskKey "u1" "t1", taskItemC8), (settingsKey "u1", settingsItemC8)]
        = .ok (⟨200⟩, t₁)
      ∧ Table.getItem t₁ (taskKey "u1" "t1") = some item₁
      ∧ Obj.get item₁ "updatedAt" = some (Val.num 300)
      ∧ (200 : Int) < 300
      ∧ Obj.get item₁ "createdAt" = some (Val.num 100) :=
  (update_bumps_updatedAt_preserves_createdAt "u1" "t1" "b"
    [("taskTitle", Val.str "z")] taskItemC8 settingsItemC8
    (constParse [("taskTitle", Val.str "z")]) 300 200 60
    (Val.num 100) (Val.num 50)
    [(taskKey "u1" "t1", taskItemC8), (settingsKey "u1", settingsItemC8)]
    (by decide) (by decide) (by decide) (by decide) (by decide)
    (by decide) (by decide) (by decide) (by decide) (by decide)
    (by decide) (by decide) (by decide)).1

/-- C2 counterexample: with a missing `Authorization` header the handler does
not return the deny policy — it throws `Unauthorized`. -/
theorem lambdaAuthorizer_missing_token_counterexample :
    lambdaAuthorizer verifyFix [⟨"k1", "p1"⟩] [("X-User-Id", "u1")] = .error "Unauthorized"
    ∧ lambdaAuthorizer verifyFix [⟨"k1", "p1"⟩] [("X-User-Id", "u1")] ≠ .ok .deny := by
  refine ⟨rfl, ?_⟩
  intro h
  rw [show lambdaAuthorizer verifyFix [⟨"k1", "p1"⟩] [("X-User-Id", "u1")]
      = .error "Unauthorized" from rfl] at h
  exact Except.noConfusion h

/-- C2 (amended): when both the bearer token and the claimed-identity header
are present, the decision is Allow iff the token verifies and the decoded
subject equals the claimed user id, and otherwise Deny; but a missing token
or missing claimed-identity header makes the handler throw `Unauthorized`
rather than yield the deny policy. -/
theorem lambdaAuthorizer_decision
    (verify : String → String → Option Obj) (keys : List SigningKey)
    (headers : List (String × String)) :
    (presentNonEmpty (headerLookup headers "Authorization") = none ∨ readUserId headers = none →
      lambdaAuthorizer verify keys headers = .error "Unauthorized")
    ∧ (∀ auth userId,
        presentNonEmpty (headerLookup headers "Authorization") = some auth →
        readUserId headers = some userId →
        (lambdaAuthorizer verify keys headers = .ok .allow
          ↔ ∃ token decoded, (jsSplit ' ' auth).get? 1 = some token
              ∧ verifyAccessToken verify keys token = some decoded
              ∧ Obj.get decoded "sub" = some (Val.str userId))
        ∧ (lambdaAuthorizer verify keys headers = .ok .allow
            ∨ lambdaAuthorizer verify keys headers = .ok .deny)) := by
  have hspec : ∀ auth userId,
      (authDecision verify keys auth userId = .ok .allow
        ↔ ∃ token decoded, (jsSplit ' ' auth).get? 1 = some token
            ∧ verifyAccessToken verify keys token = some decoded
            ∧ Obj.get decoded "sub" = some (Val.str userId))
      ∧ (authDecision verify keys auth userId = .ok .allow
          ∨ authDecision verify keys auth userId = .ok .deny) := by
    intro auth userId
    unfold authDecision
    rcases htok : (jsSplit ' ' auth).get? 1 with _ | token
    · simp
    · rcases hdec : verifyAccessToken verify keys token with _ | decoded
      · simp [hdec]
      · by_cases hsub : Obj.get decoded "sub" = some (Val.str userId)
        · simp [hdec, hsub]
        · simp [hdec, hsub]
  constructor
  · intro h
    rcases h with h | h
    · rcases hU : readUserId headers with _ | u <;>
        simp [lambdaAuthorizer, h, hU]
    · rcases hA : presentNonEmpty (headerLookup headers "Authorization") with _ | a <;>
        simp [lambdaAuthorizer, h, hA]
  · intro auth userId hA hU
    simpa [lambdaAuthorizer, hA, hU] using hspec auth userId

/-- Witness for `lambdaAuthorizer_decision`: a verified token with matching
subject is allowed at a concrete input. -/
theorem lambdaAuthorizer_decision_witness :
    lambdaAuthorizer verifyFix [⟨"k1", "p1"⟩]
      [("Authorization", "Bearer tok1"), ("X-User-Id", "u1")] = .ok .allow := by
  have h := (lambdaAuthorizer_decision verifyFix [⟨"k1", "p1"⟩]
    [("Authorization", "Bearer tok1"), ("X-User-Id", "u1")]).2 "Bearer tok1" "u1"
    (by decide) (by decide)
  exact h.1.mpr ⟨"tok1", [("sub", Val.str "u1")], by decide, by decide, by decide⟩

/-- C6: the source never parses the token's key-id hint — `verifyAccessToken`
always verifies with the first key of the fetched key set.  For a token whose
key-id hint is `k1` against a key set listing `k2` first, the code verifies
with the non-matching `k2` key, while the spec's resolution selects `k1`. -/
theorem verifyAccessToken_ignores_kid :
    sourceSigningKey keysC6 = some ⟨"k2", "p2"⟩
    ∧ selectKeyByKid "k1" keysC6 = some ⟨"k1", "p1"⟩
    ∧ (sourceSigningKey keysC6).map SigningKey.kid ≠ some "k1"
    ∧ ∀ (verify : String → String → Option Obj) (token : String),
        verifyAccessToken verify keysC6 token = verify token "p2" := by
  exact ⟨rfl, rfl, by decide, fun verify token => rfl⟩

/-! Lemmas about lookups over concatenations and batched puts. -/

theorem Obj.get_append_of_none (a b : Obj) (k : String)
    (h : Obj.get a k = none) : Obj.get (a ++ b) k = Obj.get b k := by
  induction a with
  | nil => simp
  | cons p rest ih =>
      rcases p with ⟨k₀, v₀⟩
      by_cases h₀ : k₀ = k
      · rw [Obj.get_cons, if_pos h₀] at h; exact absurd h (by simp)
      · rw [Obj.get_cons, if_neg h₀] at h
        rw [List.cons_append, Obj.get_cons, if_neg h₀]
        exact ih h

theorem Obj.get_append_of_some (a b : Obj) (k : String) (v : Val)
    (h : Obj.get a k = some v) : Obj.get (a ++ b) k = some v := by
  induction a with
  | nil => rw [Obj.get_nil] at h; exact absurd h (by simp)
  | cons p rest ih =>
      rcases p with ⟨k₀, v₀⟩
      by_cases h₀ : k₀ = k
      · rw [Obj.get_cons, if_pos h₀] at h
        rw [List.cons_append, Obj.get_cons, if_pos h₀]
        exact h
      · rw [Obj.get_cons, if_neg h₀] at h
        rw [List.cons_append, Obj.get_cons, if_neg h₀]
        exact ih h

theorem Table.getItem_cons (k₀ : Key) (it₀ : Obj) (rest : Table) (k : Key) :
    Table.getItem ((k₀, it₀) :: rest) k = if k₀ = k then some it₀ else Table.getItem rest k := by
  by_cases h : k₀ = k
  · have hb : (k₀ == k) = true := by simp [h]
    simp [Table.getItem, List.find?, hb, h]
  · have hb : (k₀ == k) = false := by simp [h]
    simp [Table.getItem, List.find?, hb, h]

theorem getItem_ddbPut_ne (t : Table) (k₀ : Key) (item : Obj) (k : Key)
    (h : k ≠ k₀) : Table.getItem (ddbPut t k₀ item) k = Table.getItem t k := by
  induction t with
  | nil => simp [ddbPut, Table.getItem_cons, Ne.symm h, Table.getItem]
  | cons p rest ih =>
      rcases p with ⟨kp, itp⟩
      by_cases h₀ : kp = k₀
      · subst h₀
        simp [ddbPut, Table.getItem_cons, Ne.symm h]
      · by_cases h₁ : kp = k <;> simp [ddbPut, Table.getItem_cons, h₀, h₁, h, ih]

theorem getItem_foldl_ddbPut_ne (l : List (Key × Obj)) (t : Table) (k : Key)
    (h : ∀ q ∈ l, q.1 ≠ k) :
    Table.getItem (l.foldl (fun acc q => ddbPut acc q.1 q.2) t) k = Table.getItem t k := by
  induction l generalizing t with
  | nil => rfl
  | cons q rest ih =>
      rw [List.foldl_cons, ih _ (fun p hp => h p (List.mem_cons_of_mem _ hp))]
      exact getItem_ddbPut_ne t q.1 q.2 k (fun hk => h q (List.mem_cons_self _ _) hk.symm)

/-! Lemmas about the notification items built by the create-task handler. -/

theorem notificationItems_length (userId taskId : String) (uuids : Nat → String)
    (entries : List (String × Bool)) (now : Int) :
    (notificationItems userId taskId uuids entries now).length
      = (entries.filter (fun p => p.2)).length := by
  simp [notificationItems]

theorem notificationItems_reminders (userId taskId : String) (uuids : Nat → String)
    (entries : List (String × Bool)) (now : Int) :
    (notificationItems userId taskId uuids entries now).map
        (fun q => Obj.get q.2 "reminderTimeBeforeDue")
      = (entries.filter (fun p => p.2)).map (fun p => some (parseIntVal p.1)) := by
  unfold notificationItems
  rw [List.map_map]
  have hcomp : ((fun q : Key × Obj => Obj.get q.2 "reminderTimeBeforeDue") ∘
      (fun q : Nat × (String × Bool) =>
        ((⟨"USER#" ++ userId, "TASK#" ++ taskId ++ "NOTIFICATION#" ++ uuids q.1⟩ : Key),
         ([("notificationEnabled", Val.bool true),
           ("reminderTimeBeforeDue", parseIntVal q.2.1),
           ("createdAt", Val.num now), ("updatedAt", Val.num now)] : Obj))))
      = (fun q : Nat × (String × Bool) => some (parseIntVal q.2.1)) := by
    funext q
    rfl
  rw [hcomp]
  have : (fun q : Nat × (String × Bool) => some (parseIntVal q.2.1))
      = (fun p : String × Bool => some (parseIntVal p.1)) ∘ Prod.snd := rfl
  rw [this, ← List.map_map, List.enum_map_snd]

theorem notificationItems_keys (userId taskId : String) (uuids : Nat → String)
    (entries : List (String × Bool)) (now : Int) :
    ∀ q ∈ notificationItems userId taskId uuids entries now,
      q.1.pk = "USER#" ++ userId
      ∧ ∃ nid, q.1.sk = "TASK#" ++ taskId ++ "NOTIFICATION#" ++ nid := by
  intro q hq
  unfold notificationItems at hq
  rcases List.mem_map.mp hq with ⟨a, _, rfl⟩
  exact ⟨rfl, uuids a.1, rfl⟩

theorem notificationItems_key_ne_taskKey (userId taskId : String) (uuids : Nat → String)
    (entries : List (String × Bool)) (now : Int) :
    ∀ q ∈ notificationItems userId taskId uuids entries now,
      q.1 ≠ taskKey userId taskId := by
  intro q hq heq
  rcases (notificationItems_keys userId taskId uuids entries now q hq).2 with ⟨nid, hsk⟩
  have hlen := congrArg (fun key : Key => key.sk.length) heq
  simp only [hsk, taskKey] at hlen
  have h13 : ("NOTIFICATION#" : String).length = 13 := rfl
  simp [String.length_append, h13] at hlen
  omega

/-- Lookup of `taskCompleted` in the stored task item: always `false`. -/
theorem get_taskItemOf_taskCompleted (rb : Obj) (now : Int) :
    Obj.get (taskItemOf rb now) "taskCompleted" = some (Val.bool false) := by
  unfold taskItemOf
  have hA : Obj.get (match Obj.get rb "taskTitle" with
      | some v => [("taskTitle", v)] | none => []) "taskCompleted" = none := by
    rcases h : Obj.get rb "taskTitle" with _ | v <;> rfl
  have hAB : Obj.get ((match Obj.get rb "taskTitle" with
      | some v => [("taskTitle", v)] | none => []) ++ [("taskCompleted", Val.bool false)])
      "taskCompleted" = some (Val.bool false) := by
    rw [Obj.get_append_of_none _ _ _ hA]; rfl
  exact Obj.get_append_of_some _ _ _ _ (Obj.get_append_of_some _ _ _ _
    (Obj.get_append_of_some _ _ _ _ (Obj.get_append_of_some _ _ _ _ hAB)))

/-- Lookup of `taskCompleted` in the response's cleaned task: it echoes the
request body verbatim whenever the body carries the field. -/
theorem get_cleanedTaskOf_taskCompleted (taskId : String) (rb : Obj) (now : Int) (v : Val)
    (hv : Obj.get rb "taskCompleted" = some v) :
    Obj.get (cleanedTaskOf taskId rb now) "taskCompleted" = some v := by
  unfold cleanedTaskOf
  have h12 : Obj.get ([("taskId", Val.str taskId)] ++ (match Obj.get rb "taskTitle" with
      | some v => [("taskTitle", v)] | none => [])) "taskCompleted" = none := by
    rw [Obj.get_append_of_none _ _ _ (by rfl)]
    rcases h : Obj.get rb "taskTitle" with _ | w <;> rfl
  have h123 : Obj.get (([("taskId", Val.str taskId)] ++ (match Obj.get rb "taskTitle" with
      | some v => [("taskTitle", v)] | none => [])) ++ (match Obj.get rb "taskCompleted" with
      | some v => [("taskCompleted", v)] | none => [])) "taskCompleted" = some v := by
    rw [Obj.get_append_of_none _ _ _ h12, hv]
    rfl
  exact Obj.get_append_of_some _ _ _ _ (Obj.get_append_of_some _ _ _ _
    (Obj.get_append_of_some _ _ _ _ (Obj.get_append_of_some _ _ _ _
      (Obj.get_append_of_some _ _ _ _ h123))))

/-- Evaluation helper: `presentNonEmpty` of an absent value. -/
theorem presentNonEmpty_none : presentNonEmpty none = none := rfl

/-- C5: the create-task handler builds exactly one notification item per
`defaultNotifications` key mapped to true and none for keys mapped to false,
each as a separate item under the created task's partition and sort-key
prefix, with `reminderTimeBeforeDue = parseInt(key)`; in particular the
spec's scenario map with only "5" true yields exactly one notification item
with value 5. -/
theorem createUserTask_default_notifications (userId taskId : String)
    (uuids : Nat → String) (entries : List (String × Bool)) (now : Int) :
    (notificationItems userId taskId uuids entries now).length
      = (entries.filter (fun p => p.2)).length
    ∧ (notificationItems userId taskId uuids entries now).map
        (fun q => Obj.get q.2 "reminderTimeBeforeDue")
      = (entries.filter (fun p => p.2)).map (fun p => some (parseIntVal p.1))
    ∧ (∀ q ∈ notificationItems userId taskId uuids entries now,
        q.1.pk = "USER#" ++ userId
        ∧ ∃ nid, q.1.sk = "TASK#" ++ taskId ++ "NOTIFICATION#" ++ nid)
    ∧ notificationItems userId taskId uuids
        [("5", true), ("15", false), ("30", false), ("45", false), ("60", false)] now
      = [(⟨"USER#" ++ userId, "TASK#" ++ taskId ++ "NOTIFICATION#" ++ uuids 0⟩,
          [("notificationEnabled", Val.bool true),
           ("reminderTimeBeforeDue", Val.num 5),
           ("createdAt", Val.num now), ("updatedAt", Val.num now)])] :=
  ⟨notificationItems_length userId taskId uuids entries now,
   notificationItems_reminders userId taskId uuids entries now,
   notificationItems_keys userId taskId uuids entries now,
   rfl⟩

/-- C9 counterexample: a create-task request whose body fails JSON parsing, or
whose parsed body lacks the `defaultNotifications` map, makes the handler
throw (the `JSON.parse` SyntaxError / `Object.keys` TypeError are outside the
try) instead of returning a structured 400-class response. -/
theorem createUserTask_throws_counterexample :
    createUserTask true [("X-User-Id", "u1")] (some "notjson") noParse uuidFix 7 []
      = .error "SyntaxError: JSON.parse"
    ∧ createUserTask true [("X-User-Id", "u1")] (some "b")
        (constParse [("taskTitle", Val.str "x")]) uuidFix 7 []
      = .error "TypeError: Object.keys" :=
  ⟨rfl, rfl⟩

/-- C9 (amended): the handlers return structured 400 responses for a missing
identity header, a missing body, and a missing required query parameter
(shown for the create-task and update-task handlers), but a body that fails
JSON parsing, or a create-task body without a usable `defaultNotifications`
object, escapes as an uncaught exception rather than a structured
response. -/
theorem handler_error_paths (headers : List (String × String)) (body? : Option String)
    (parse : String → Option Obj) (uuids : Nat → String) (now : Int) (t : Table) :
    (readUserId headers = none →
      createUserTask true headers body? parse uuids now t = .ok ⟨400, none, t⟩
      ∧ updateUserTask headers body? (some "t1") parse now t = .ok (⟨400⟩, t))
    ∧ (∀ userId, readUserId headers = some userId → presentNonEmpty body? = none →
      createUserTask true headers body? parse uuids now t = .ok ⟨400, none, t⟩
      ∧ updateUserTask headers body? (some "t1") parse now t = .ok (⟨400⟩, t))
    ∧ (∀ userId body, readUserId headers = some userId →
        presentNonEmpty body? = some body →
        updateUserTask headers body? none parse now t = .ok (⟨400⟩, t))
    ∧ (∀ userId body, readUserId headers = some userId →
        presentNonEmpty body? = some body → parse body = none →
        createUserTask true headers body? parse uuids now t
          = .error "SyntaxError: JSON.parse")
    ∧ (∀ userId body rb, readUserId headers = some userId →
        presentNonEmpty body? = some body → parse body = some rb →
        notifMapEntries (Obj.get rb "defaultNotifications") = none →
        createUserTask true headers body? parse uuids now t
          = .error "TypeError: Object.keys") := by
  refine ⟨?_, ?_, ?_, ?_, ?_⟩
  · intro h
    exact ⟨by simp [createUserTask, h], by simp [updateUserTask, h]⟩
  · intro userId h hb
    exact ⟨by simp [createUserTask, h, hb], by simp [updateUserTask, h, hb]⟩
  · intro userId body h hb
    simp [updateUserTask, h, hb, presentNonEmpty_none]
  · intro userId body h hb hp
    simp [createUserTask, h, hb, hp]
  · intro userId body rb h hb hp hm
    simp [createUserTask, h, hb, hp, hm]

/-- Witness for `handler_error_paths` at concrete inputs: a body that fails
parsing throws. -/
theorem handler_error_paths_witness :
    createUserTask true [("X-User-Id", "u9")] (some "oops") noParse uuidFix 3 []
      = .error "SyntaxError: JSON.parse" :=
  (handler_error_paths [("X-User-Id", "u9")] (some "oops") noParse uuidFix 3 []).2.2.2.1
    "u9" "oops" (by decide) (by decide) rfl

/-- C10: for every create-task request whose body carries `taskCompleted` and
a usable `defaultNotifications` map with at least one selected key, the 200
response's cleaned task echoes the body's `taskCompleted` while the stored
task item has `taskCompleted = false`, so the returned entity can disagree
with the stored one. -/
theorem createUserTask_taskCompleted_divergence
    (headers : List (String × String)) (userId body : String) (body? : Option String)
    (rb : Obj) (entries : List (String × Bool)) (parse : String → Option Obj)
    (uuids : Nat → String) (now : Int) (t : Table) (v : Val)
    (hu : readUserId headers = some userId)
    (hb : presentNonEmpty body? = some body)
    (hp : parse body = some rb)
    (hdn : Obj.get rb "defaultNotifications" = some (Val.dict entries))
    (hne : entries.filter (fun p => p.2) ≠ [])
    (hv : Obj.get rb "taskCompleted" = some v) :
    ∃ t₂, createUserTask true headers body? parse uuids now t
        = .ok ⟨200, some (cleanedTaskOf (uuids 0) rb now), t₂⟩
      ∧ Obj.get (cleanedTaskOf (uuids 0) rb now) "taskCompleted" = some v
      ∧ ∃ item, Table.getItem t₂ (taskKey userId (uuids 0)) = some item
          ∧ Obj.get item "taskCompleted" = some (Val.bool false) := by
  have hm : notifMapEntries (Obj.get rb "defaultNotifications") = some entries := by
    rw [hdn]
    rfl
  have hnil : notificationItems userId (uuids 0) (fun i => uuids (i + 1)) entries now ≠ [] := by
    intro h0
    apply hne
    have hlen := notificationItems_length userId (uuids 0) (fun i => uuids (i + 1)) entries now
    rw [h0] at hlen
    exact List.eq_nil_of_length_eq_zero hlen.symm
  have hie : (notificationItems userId (uuids 0) (fun i => uuids (i + 1)) entries now).isEmpty
      = false := by
    cases hc : notificationItems userId (uuids 0) (fun i => uuids (i + 1)) entries now with
    | nil => exact absurd hc hnil
    | cons a l => rfl
  refine ⟨(notificationItems userId (uuids 0) (fun i => uuids (i + 1)) entries now).foldl
      (fun acc q => ddbPut acc q.1 q.2)
      (ddbPut t (taskKey userId (uuids 0)) (taskItemOf rb now)), ?_, ?_, ?_⟩
  · simp [createUserTask, hu, hb, hp, hm, hie]
  · exact get_cleanedTaskOf_taskCompleted (uuids 0) rb now v hv
  · refine ⟨taskItemOf rb now, ?_, get_taskItemOf_taskCompleted rb now⟩
    rw [getItem_foldl_ddbPut_ne _ _ _
      (notificationItems_key_ne_taskKey userId (uuids 0) (fun i => uuids (i + 1)) entries now)]
    exact getItem_ddbPut_self t _ _

/-- Witness for `createUserTask_taskCompleted_divergence` at a concrete
input. -/
theorem createUserTask_taskCompleted_divergence_witness :
    ∃ t₂, createUserTask true [("X-User-Id", "u1")] (some "b") (constParse rbC10) uuidFix 7 []
        = .ok ⟨200, some (cleanedTaskOf (uuidFix 0) rbC10 7), t₂⟩
      ∧ Obj.get (cleanedTaskOf (uuidFix 0) rbC10 7) "taskCompleted" = some (Val.bool true)
      ∧ ∃ item, Table.getItem t₂ (taskKey "u1" (uuidFix 0)) = some item
          ∧ Obj.get item "taskCompleted" = some (Val.bool false) :=
  createUserTask_taskCompleted_divergence [("X-User-Id", "u1")] "u1" "b" (some "b")
    rbC10 [("5", true), ("15", false)] (constParse rbC10) uuidFix 7 [] (Val.bool true)
    (by decide) (by decide) rfl (by decide) (by decide) (by decide)

theorem chunksOf_flatten_aux {α : Type} (n : Nat) (hn : n ≠ 0) :
    ∀ (k : Nat) (l : List α), l.length ≤ k → (chunksOf n l).flatten = l := by
  intro k
  induction k with
  | zero =>
      intro l hl
      have h0 : l = [] := List.eq_nil_of_length_eq_zero (Nat.le_zero.mp hl)
      subst h0
      rw [chunksOf.eq_def]
      simp
  | succ k ih =>
      intro l hl
      rw [chunksOf.eq_def]
      by_cases h0 : l.length = 0
      · rw [dif_pos (Or.inl h0)]
        rw [List.eq_nil_of_length_eq_zero h0]
        rfl
      · rw [dif_neg (not_or.mpr ⟨h0, hn⟩)]
        rw [List.flatten_cons]
        rw [ih (l.drop n) (by
          rw [List.length_drop]
          have h2 : 0 < n := Nat.pos_of_ne_zero hn
          omega)]
        exact List.take_append_drop n l

theorem chunksOf_flatten {α : Type} (n : Nat) (hn : n ≠ 0) (l : List α) :
    (chunksOf n l).flatten = l :=
  chunksOf_flatten_aux n hn l.length l (Nat.le_refl _)

theorem mem_chunksOf_length_le {α : Type} (n : Nat) :
    ∀ (k : Nat) (l : List α), l.length ≤ k → ∀ c ∈ chunksOf n l, c.length ≤ n := by
  intro k
  induction k with
  | zero =>
      intro l hl c hc
      have h0 : l = [] := List.eq_nil_of_length_eq_zero (Nat.le_zero.mp hl)
      subst h0
      rw [chunksOf.eq_def] at hc
      simp at hc
  | succ k ih =>
      intro l hl c hc
      rw [chunksOf.eq_def] at hc
      by_cases h0 : l.length = 0 ∨ n = 0
      · rw [dif_pos h0] at hc
        exact absurd hc (List.not_mem_nil c)
      · rw [dif_neg h0] at hc
        rcases not_or.mp h0 with ⟨hl0, hn⟩
        rcases List.mem_cons.mp hc with hc | hc
        · subst hc
          exact List.length_take_le n l
        · exact ih (l.drop n) (by
            rw [List.length_drop]
            have h2 : 0 < n := Nat.pos_of_ne_zero hn
            omega) c hc

theorem mem_chunksOf_length_le_total {α : Type} (n : Nat) :
    ∀ (k : Nat) (l : List α), l.length ≤ k → ∀ c ∈ chunksOf n l, c.length ≤ l.length := by
  intro k
  induction k with
  | zero =>
      intro l hl c hc
      have h0 : l = [] := List.eq_nil_of_length_eq_zero (Nat.le_zero.mp hl)
      subst h0
      rw [chunksOf.eq_def] at hc
      simp at hc
  | succ k ih =>
      intro l hl c hc
      rw [chunksOf.eq_def] at hc
      by_cases h0 : l.length = 0 ∨ n = 0
      · rw [dif_pos h0] at hc
        exact absurd hc (List.not_mem_nil c)
      · rw [dif_neg h0] at hc
        rcases not_or.mp h0 with ⟨hl0, hn⟩
        rcases List.mem_cons.mp hc with hc | hc
        · subst hc
          rw [List.length_take]
          exact Nat.min_le_right n l.length
        · have hdrop : (l.drop n).length ≤ k := by
            rw [List.length_drop]
            have h2 : 0 < n := Nat.pos_of_ne_zero hn
            omega
          have := ih (l.drop n) hdrop c hc
          rw [List.length_drop] at this
          omega

theorem chunksOf25_length_eq {α : Type} :
    ∀ (k : Nat) (l : List α), l.length ≤ k →
      (chunksOf 25 l).length = (l.length + 24) / 25 := by
  intro k
  induction k with
  | zero =>
      intro l hl
      have h0 : l = [] := List.eq_nil_of_length_eq_zero (Nat.le_zero.mp hl)
      subst h0
      rw [chunksOf.eq_def]
      simp
  | succ k ih =>
      intro l hl
      rw [chunksOf.eq_def]
      by_cases h0 : l.length = 0
      · rw [dif_pos (Or.inl h0), h0]
        simp
      · rw [dif_neg (not_or.mpr ⟨h0, by omega⟩)]
        rw [List.length_cons, ih (l.drop 25) (by rw [List.length_drop]; omega)]
        rw [List.length_drop]
        omega

/-- C4: the cascade delete pages through the user's partition (each
continuation token resuming at the remaining block), splits each page's item
keys into chunks of at most 25, groups all of a page's chunk deletions
together — issued and awaited before the next page is fetched — and
terminates when no continuation token remains; the keys across all issued
batches are exactly the items present at scan time, and each page round
issues ceil(pageLen/25) batch deletions, at most ceil(N/25). -/
theorem deleteAccount_cascade (pageSize : Nat) (items : List Key) (hp : pageSize ≠ 0) :
    ((deleteAccountBatches pageSize items).map List.flatten).flatten = items
    ∧ (∀ page ∈ paginate pageSize items, ∀ chunk ∈ chunksOf 25 page, chunk.length ≤ 25)
    ∧ (∀ page ∈ paginate pageSize items,
        (chunksOf 25 page).length = (page.length + 24) / 25
        ∧ (chunksOf 25 page).length ≤ (items.length + 24) / 25) := by
  refine ⟨?_, ?_, ?_⟩
  · unfold deleteAccountBatches
    rw [List.map_map]
    have hc : ((List.flatten ∘ chunksOf 25) : List Key → List Key) = id := by
      funext page
      exact chunksOf_flatten 25 (by decide) page
    rw [hc, List.map_id]
    exact chunksOf_flatten pageSize hp items
  · intro page _ chunk hchunk
    exact mem_chunksOf_length_le 25 page.length page (Nat.le_refl _) chunk hchunk
  · intro page hpage
    have hlen := chunksOf25_length_eq page.length page (Nat.le_refl _)
    refine ⟨hlen, ?_⟩
    have hple : page.length ≤ items.length :=
      mem_chunksOf_length_le_total pageSize items.length items (Nat.le_refl _) page hpage
    rw [hlen]
    exact Nat.div_le_div_right (Nat.add_le_add_right hple 24)

/-- Witness for `deleteAccount_cascade` at a concrete partition and page
size. -/
theorem deleteAccount_cascade_witness :
    ((deleteAccountBatches 3 keysC4).map List.flatten).flatten = keysC4
    ∧ (∀ page ∈ paginate 3 keysC4, ∀ chunk ∈ chunksOf 25 page, chunk.length ≤ 25)
    ∧ (∀ page ∈ paginate 3 keysC4,
        (chunksOf 25 page).length = (page.length + 24) / 25
        ∧ (chunksOf 25 page).length ≤ (keysC4.length + 24) / 25) :=
  deleteAccount_cascade 3 keysC4 (by decide)

end Done
